import Mathlib

/-!
Verification of the PaperBlog data-access layer (`src/lib/papers.ts`) and its
two HTTP adapters (`/api/papers` REST route and `/api/mcp` tool-call route).

The TypeScript code is shallowly embedded:

* The content store (a flat directory of files) is a `Store`: a list of
  `(filename, FileData)` entries, where `FileData` is either the `DailyPapers`
  value that the file's JSON text deserializes to (`FileData.ok`), or
  `FileData.malformed msg` for a file whose text is not valid JSON (`msg`
  models the stringified `SyntaxError` thrown by `JSON.parse`).
  `fs.readdirSync` is the list of filenames, `fs.existsSync`/`fs.readFileSync`
  is association lookup.  `JSON.stringify` followed by `JSON.parse` is the
  identity on JSON-representable values, so `saveDailyPapers` stores
  `FileData.ok daily` directly.
* Throwing code is embedded in the `Except String` monad (the error value is
  the stringified exception); `null`-returning lookups are `Option`.
* JavaScript strings are Lean `String`s; `toLowerCase` is modelled by
  `strToLower` below (the claims only exercise ASCII data, where it agrees
  with full Unicode lowercasing).  JS numbers appearing in the claims are
  integers and are modelled as `Int`.
-/

/-- Model of `Paper` from `src/types/paper.ts`, field for field. -/
structure Paper where
  id : String
  title : String
  authors : List String
  abstract : String
  summary : String
  url : String
  pdfUrl : Option String := none
  thumbnailUrl : Option String := none
  upvotes : Nat
  publishedAt : String
  fetchedAt : String
  tags : List String
  arxivId : Option String := none
deriving DecidableEq, Repr

/-- Model of `DailyPapers` from `src/types/paper.ts`. -/
structure DailyPapers where
  date : String
  papers : List Paper
  generatedAt : String
deriving DecidableEq, Repr

/-- Content of one file of the content store: either the `DailyPapers` value
its JSON text parses to, or text on which `JSON.parse` throws (with the
stringified error `msg`). -/
inductive FileData where
  | ok (d : DailyPapers)
  | malformed (msg : String)
deriving DecidableEq, Repr

/-- The content directory (`CONTENT_DIR`): filenames with their contents.
`ensureContentDir` is the identity here — the store always exists as a value,
an empty directory being the empty list. -/
structure Store where
  files : List (String × FileData)
deriving DecidableEq, Repr

deriving instance DecidableEq for Except

/-- Lexicographic strict order on character lists, comparing code points:
the order JS `Array.prototype.sort`'s default comparator induces on strings
(UTF-16 code units and code points agree on the data in the claims). -/
def listLtB : List Char → List Char → Bool
  | [], [] => false
  | [], _ :: _ => true
  | _ :: _, [] => false
  | a :: as, b :: bs =>
    if a < b then true else if b < a then false else listLtB as bs

/-- Strict lexicographic order on strings. -/
def strLtB (a b : String) : Bool :=
  listLtB a.data b.data

/-- The sorting relation of JS default `sort` on strings: `a` may precede `b`
iff `b` is not strictly smaller than `a`. -/
def strLeP (a b : String) : Prop :=
  listLtB b.data a.data = false

instance : DecidableRel strLeP :=
  fun a b => inferInstanceAs (Decidable (listLtB b.data a.data = false))

/-- JS `String.prototype.toLowerCase` (ASCII range, see header note). -/
def strToLower (s : String) : String :=
  String.mk (s.data.map Char.toLower)

/-- Models JS `String.prototype.endsWith` via `isSuffixOf` on the data. -/
def strEndsWith (s suffix : String) : Bool :=
  suffix.data.isSuffixOf s.data

/-- Remove the first occurrence of `pat` from a character list; the rest of
the list is kept unchanged.  Models JS `s.replace(pat, "")`, whose string-pattern
form replaces only the first occurrence. -/
def stripFirst (pat : List Char) : List Char → List Char
  | [] => []
  | c :: cs =>
    if pat.isPrefixOf (c :: cs) then (c :: cs).drop pat.length
    else c :: stripFirst pat cs

/-- JS `s.replace(pat, "")` (string pattern, hence first occurrence only). -/
def jsReplaceFirst (s pat : String) : String :=
  String.mk (stripFirst pat.data s.data)

/-- Substring test on character lists: `hasSubstr sub l` is true iff `sub`
occurs contiguously in `l`.  The empty list occurs in everything. -/
def hasSubstr (sub : List Char) : List Char → Bool
  | [] => sub.isEmpty
  | c :: cs => sub.isPrefixOf (c :: cs) || hasSubstr sub cs

/-- JS `s.includes(sub)`. -/
def strIncludes (s sub : String) : Bool :=
  hasSubstr sub.data s.data

/-- The directory names kept by `getAllDates` before sorting:
`files.filter(f => f.endsWith(".json")).map(f => f.replace(".json", ""))`. -/
def strippedNames (s : Store) : List String :=
  ((s.files.map Prod.fst).filter (fun f => strEndsWith f ".json")).map
    (fun f => jsReplaceFirst f ".json")

/-- Model of `getAllDates` (`papers.ts:13-21`): list the directory, keep names ending
in `".json"`, strip the first `".json"` occurrence from each, sort
lexicographically ascending (`Array.prototype.sort`, modelled by insertion
sort — extensionally equal on strings), then reverse. -/
def getAllDates (s : Store) : List String :=
  (List.insertionSort strLeP (strippedNames s)).reverse

/-- Model of `getPapersForDate` (`papers.ts:23-29`): look up `date ++ ".json"`; an
absent file returns `null` (here `.ok none`), a present well-formed file is
parsed, a malformed file makes `JSON.parse` throw (here `.error msg`). -/
def getPapersForDate (s : Store) (date : String) :
    Except String (Option DailyPapers) :=
  match s.files.lookup (date ++ ".json") with
  | none => .ok none
  | some (.ok d) => .ok (some d)
  | some (.malformed msg) => .error msg

/-- Model of `getLatestPapers` (`papers.ts:31-35`). -/
def getLatestPapers (s : Store) : Except String (Option DailyPapers) :=
  match getAllDates s with
  | [] => .ok none
  | d :: _ => getPapersForDate s d

/-- The loop body of `getAllPapers`: walk the date list in order, pushing the
`papers` of every date whose document is non-null; a thrown read error
propagates. -/
def collectPapers (s : Store) : List String → Except String (List Paper)
  | [] => .ok []
  | d :: ds => do
    let daily ← getPapersForDate s d
    let rest ← collectPapers s ds
    match daily with
    | some dp => .ok (dp.papers ++ rest)
    | none => .ok rest

/-- Model of `getAllPapers` (`papers.ts:37-45`). -/
def getAllPapers (s : Store) : Except String (List Paper) :=
  collectPapers s (getAllDates s)

/-- Model of `getPaperById` (`papers.ts:47-50`): first match of a linear scan of
`getAllPapers`, `null` if none (`find` + `?? null`). -/
def getPaperById (s : Store) (id : String) : Except String (Option Paper) := do
  let all ← getAllPapers s
  .ok (all.find? (fun p => p.id == id))

/-- Model of `searchPapers` (`papers.ts:52-63`): lowercase the query once, then filter
`getAllPapers` by case-insensitive substring match against title, abstract,
summary, any author, or any tag. -/
def searchPapers (s : Store) (query : String) : Except String (List Paper) := do
  let all ← getAllPapers s
  let q := strToLower query
  .ok (all.filter (fun p =>
    strIncludes (strToLower p.title) q ||
    strIncludes (strToLower p.abstract) q ||
    strIncludes (strToLower p.summary) q ||
    p.authors.any (fun a => strIncludes (strToLower a) q) ||
    p.tags.any (fun t => strIncludes (strToLower t) q)))

/-- Helper for `saveDailyPapers` (`papers.ts:65-69`): `fs.writeFileSync` on
`daily.date ++ ".json"` — replace the contents of the file of that name, or
create it. -/
def setFile : List (String × FileData) → String → FileData →
    List (String × FileData)
  | [], name, data => [(name, data)]
  | (n, d) :: rest, name, data =>
    if n == name then (name, data) :: rest
    else (n, d) :: setFile rest name data

/-- Model of `saveDailyPapers`: writes the serialization of `daily` (which parses back
to `daily`) under the filename derived from its own `date` field. -/
def saveDailyPapers (s : Store) (daily : DailyPapers) : Store :=
  Store.mk (setFile s.files (daily.date ++ ".json") (.ok daily))

/-!
## HTTP adapters

The REST route `GET /api/papers` (`src/app/api/papers/route.ts`) and the
tool-call route `/api/mcp` (`src/app/api/mcp/route.ts`).  Query parameters are
`Option String` (`searchParams.get` returns `null` when absent); `parseInt`
returning `NaN` and an absent `limit` behave identically at every later use
(both are falsy, `NaN ?? d = NaN` never happens since JSON carries no `NaN`),
so both are modelled as `none`.  The bodies of `text` fields that the MCP
route fills with `JSON.stringify(v, null, 2)` are modelled by a constructor
carrying the value `v` that is serialized (distinct values give distinct
texts); template-literal strings are carried verbatim by `TextVal.raw`.
-/

/-- JS truthiness of a nullable string: `null` and `""` are falsy. -/
def strTruthy : Option String → Bool
  | some s => s != ""
  | none => false

/-- JS `parseInt(s, 10)`: skip leading whitespace, optional sign, then the
longest digit run; `none` models `NaN` (no digits). -/
def jsParseInt (s : String) : Option Int :=
  let cs := s.data.dropWhile (fun c => c = ' ' || c = '\t' || c = '\n' || c = '\r')
  let signed : Int × List Char :=
    match cs with
    | '-' :: rest => (-1, rest)
    | '+' :: rest => (1, rest)
    | _ => (1, cs)
  let ds := signed.2.takeWhile Char.isDigit
  if ds.isEmpty then none
  else some (signed.1 * (ds.foldl (fun acc c => acc * 10 + (c.toNat - 48)) 0 : Nat))

/-- JS `l.slice(0, n)` for an integer `n`: a nonnegative end index takes the
first `n` elements, a negative one counts from the end (`max (len + n) 0`). -/
def jsSlice0 {α : Type} (l : List α) (n : Int) : List α :=
  if 0 ≤ n then l.take n.toNat else l.take (l.length - (-n).toNat)

/-- Responses of `GET /api/papers`, by shape and status code. -/
inductive RestResponse where
  | searchOk (papers : List Paper) (total : Nat)
  | dailyOk (daily : DailyPapers)
  | latestOk (latest : Option DailyPapers) (availableDates : List String)
  | notFound (error : String)
  | serverError
deriving DecidableEq, Repr

/-- The `GET /api/papers` handler (`route.ts:19-55`): `q` wins over `date`,
which wins over the latest+dates default; repository exceptions are caught
and reported as status 500. -/
def papersGET (s : Store) (dateParam qParam limitParam : Option String) :
    RestResponse :=
  let limit : Option Int :=
    match limitParam with
    | some lp => if lp == "" then none else jsParseInt lp
    | none => none
  if strTruthy qParam then
    match searchPapers s (qParam.getD "") with
    | .error _ => .serverError
    | .ok results =>
      let results :=
        match limit with
        | some n => if n != 0 then jsSlice0 results n else results
        | none => results
      .searchOk results results.length
  else if strTruthy dateParam then
    match getPapersForDate s (dateParam.getD "") with
    | .error _ => .serverError
    | .ok none => .notFound ("No papers found for date " ++ dateParam.getD "")
    | .ok (some daily) => .dailyOk daily
  else
    match getLatestPapers s with
    | .error _ => .serverError
    | .ok latest => .latestOk latest (getAllDates s)

/-- Value carried by the `text` field of an MCP content item: a literal
string, or the `JSON.stringify(·, null, 2)` of one of the object shapes the
route builds. -/
inductive TextVal where
  | raw (s : String)
  | latestPayload (date : String) (papers : List Paper) (total : Nat)
  | byDatePayload (date : String) (papers : List Paper)
  | paperPayload (p : Paper)
  | searchPayload (query : String) (results : List Paper) (total : Nat)
  | datesPayload (dates : List String)
deriving DecidableEq, Repr

/-- One `{type, text}` content item (`ctype` models the JSON key `type`,
a Lean keyword). -/
structure ContentItem where
  ctype : String
  text : TextVal
deriving DecidableEq, Repr

/-- Model of `MCPToolResult` from `src/types/paper.ts`; `isError` is optional. -/
structure MCPToolResult where
  content : List ContentItem
  isError : Option Bool := none
deriving DecidableEq, Repr

/-- The names of the fixed `TOOLS` catalog (`mcp/route.ts:14-88`). -/
def toolNames : List String :=
  ["get_latest_papers", "get_papers_by_date", "get_paper_by_id",
   "search_papers", "list_dates"]

/-- Arguments record of a tool call: the four keys the dispatcher reads.
Absent keys are `none` (JS `undefined`); numbers are modelled as integers. -/
structure ToolArgs where
  date : Option String := none
  id : Option String := none
  query : Option String := none
  limit : Option Int := none
deriving DecidableEq, Repr

/-- String interpolation of a possibly-undefined value: an absent string
renders as `"undefined"` in a template literal. -/
def jsUndefStr : Option String → String
  | some s => s
  | none => "undefined"

/-- Body of the `switch` in `executeTool` (`mcp/route.ts:96-185`), before the
surrounding `try`/`catch`: a thrown repository error is an `Except.error`. -/
def runTool (s : Store) (name : String) (args : ToolArgs) :
    Except String MCPToolResult :=
  if name == "get_latest_papers" then do
    let limit : Int := args.limit.getD 10
    let dailyOpt ← getLatestPapers s
    match dailyOpt with
    | none => .ok ⟨[⟨"text", .raw "No papers available yet."⟩], none⟩
    | some daily =>
      .ok ⟨[⟨"text", .latestPayload daily.date (jsSlice0 daily.papers limit)
               daily.papers.length⟩], none⟩
  else if name == "get_papers_by_date" then do
    let date := jsUndefStr args.date
    let dailyOpt ← getPapersForDate s date
    match dailyOpt with
    | none =>
      .ok ⟨[⟨"text", .raw ("No papers found for date " ++ date)⟩], some true⟩
    | some daily =>
      let papers :=
        match args.limit with
        | some n => if n != 0 then jsSlice0 daily.papers n else daily.papers
        | none => daily.papers
      .ok ⟨[⟨"text", .byDatePayload date papers⟩], none⟩
  else if name == "get_paper_by_id" then do
    let paperOpt ←
      match args.id with
      | some i => getPaperById s i
      | none => do
        let _ ← getAllPapers s
        .ok none
    match paperOpt with
    | none =>
      .ok ⟨[⟨"text", .raw ("Paper \"" ++ jsUndefStr args.id ++ "\" not found")⟩],
        some true⟩
    | some p => .ok ⟨[⟨"text", .paperPayload p⟩], none⟩
  else if name == "search_papers" then
    match args.query with
    | none =>
      .error "TypeError: Cannot read properties of undefined (reading 'toLowerCase')"
    | some q => do
      let results ← searchPapers s q
      let results := jsSlice0 results (args.limit.getD 10)
      .ok ⟨[⟨"text", .searchPayload q results results.length⟩], none⟩
  else if name == "list_dates" then
    .ok ⟨[⟨"text", .datesPayload (getAllDates s)⟩], none⟩
  else
    .ok ⟨[⟨"text", .raw ("Unknown tool: " ++ name)⟩], some true⟩

/-- Model of `executeTool` (`mcp/route.ts:91-197`): the `try`/`catch` around the
switch, converting any thrown error into an `isError:true` text result. -/
def executeTool (s : Store) (name : String) (args : ToolArgs) : MCPToolResult :=
  match runTool s name args with
  | .ok r => r
  | .error e =>
    ⟨[⟨"text", .raw ("Error executing tool \"" ++ name ++ "\": " ++ e)⟩],
      some true⟩

/-- A parsed `POST /api/mcp` body (`{name?, arguments?}`). -/
structure McpBody where
  name : Option String := none
  arguments : Option ToolArgs := none
deriving DecidableEq, Repr

/-- Responses of `POST /api/mcp`. -/
inductive McpResponse where
  | ok (result : MCPToolResult)
  | badRequest (error : String)
  | serverError
deriving DecidableEq, Repr

/-- The `POST /api/mcp` handler (`mcp/route.ts:216-236`); `body = none`
models a request whose body fails to parse as JSON (`request.json()` throws,
caught as status 500). -/
def mcpPOST (s : Store) (body : Option McpBody) : McpResponse :=
  match body with
  | none => .serverError
  | some b =>
    if strTruthy b.name = false then
      .badRequest "Missing required field: name"
    else .ok (executeTool s (b.name.getD "") (b.arguments.getD {}))

/-!
## Spec-side definitions and concrete fixtures

`searchFields`/`specMatches` restate the spec's wording of the search
predicate, to be compared against the filter in `searchPapers`.
`isDateFormat` restates the spec's `YYYY-MM-DD` naming convention.
`docPapers`/`readOk` name the per-date document contents and the
"read succeeds" condition used to state aggregate properties.
-/

/-- The fields the spec says `search` matches against: title, abstract,
summary, every author name, every tag. -/
def searchFields (p : Paper) : List String :=
  [p.title, p.abstract, p.summary] ++ p.authors ++ p.tags

/-- The spec's matching condition: the lowercased query is a substring of the
lowercased field, for some candidate field. -/
def specMatches (q : String) (p : Paper) : Bool :=
  (searchFields p).any
    (fun f => hasSubstr (strToLower q).data (strToLower f).data)

/-- The spec's `YYYY-MM-DD` shape: ten characters, digits in the year, month
and day positions, dashes at positions 4 and 7. -/
def isDateFormat (s : String) : Bool :=
  match s.data with
  | [y1, y2, y3, y4, s1, m1, m2, s2, d1, d2] =>
    y1.isDigit && y2.isDigit && y3.isDigit && y4.isDigit &&
    (s1 == '-') && m1.isDigit && m2.isDigit &&
    (s2 == '-') && d1.isDigit && d2.isDigit
  | _ => false

/-- The papers of the document stored for date `d`, the empty list when the
document is absent or unreadable. -/
def docPapers (s : Store) (d : String) : List Paper :=
  match getPapersForDate s d with
  | .ok (some dp) => dp.papers
  | _ => []

/-- Predicate `readOk s d`: holds when reading date `d` does not throw. -/
def readOk (s : Store) (d : String) : Bool :=
  match getPapersForDate s d with
  | .ok _ => true
  | .error _ => false

/-- Fixture paper, taken from the repository's unit-test fixtures. -/
def wPaper1 : Paper :=
  { id := "2502.00001"
    title := "Attention Is All You Need"
    authors := ["Alice Smith", "Bob Jones"]
    abstract := "We propose the Transformer based solely on attention."
    summary := "A paper introducing the Transformer architecture."
    url := "https://huggingface.co/papers/2502.00001"
    upvotes := 150
    publishedAt := "2025-02-01T00:00:00.000Z"
    fetchedAt := "2025-02-01T12:00:00.000Z"
    tags := ["NLP", "Transformers"] }

/-- Second fixture paper. -/
def wPaper2 : Paper :=
  { id := "2503.00001"
    title := "Scaling Laws Revisited"
    authors := ["Dana Lee"]
    abstract := "An empirical study of scaling."
    summary := ""
    url := "https://huggingface.co/papers/2503.00001"
    upvotes := 42
    publishedAt := "2025-03-01T00:00:00.000Z"
    fetchedAt := "2025-03-01T12:00:00.000Z"
    tags := ["ML"] }

/-- Fixture batch for 2025-02-01. -/
def wDaily1 : DailyPapers :=
  { date := "2025-02-01", papers := [wPaper1], generatedAt := "2025-02-01T12:30:00.000Z" }

/-- Fixture batch for 2025-03-01. -/
def wDaily2 : DailyPapers :=
  { date := "2025-03-01", papers := [wPaper2], generatedAt := "2025-03-01T12:30:00.000Z" }

/-- A well-formed two-date store. -/
def wStore : Store :=
  Store.mk [("2025-02-01.json", .ok wDaily1), ("2025-03-01.json", .ok wDaily2)]

/-- A store with one malformed document next to a well-formed one. -/
def wStoreBad : Store :=
  Store.mk [("2025-01-01.json", .malformed "SyntaxError: Unexpected token"),
            ("2025-02-01.json", .ok wDaily1)]

/-- Two distinct filenames both ending in `".json"` whose first `".json"`
occurrence strips to the same string. -/
def dupStore : Store :=
  Store.mk [("a.jsonb.json", .malformed "SyntaxError: Unexpected token"),
            ("ab.json.json", .malformed "SyntaxError: Unexpected token")]

/-- A store whose single entry ends in `".json"` but is not date-named. -/
def oddStore : Store :=
  Store.mk [("notadate.json", .ok wDaily1)]

/-!
## Helper lemmas
-/

theorem listLtB_cons (a b : Char) (as bs : List Char) :
    listLtB (a :: as) (b :: bs) =
      if a < b then true else if b < a then false else listLtB as bs :=
  rfl

theorem listLtB_irrefl : ∀ l : List Char, listLtB l l = false
  | [] => rfl
  | a :: as => by
    rw [listLtB_cons, if_neg (lt_irrefl a), if_neg (lt_irrefl a)]
    exact listLtB_irrefl as

theorem listLtB_asymm :
    ∀ a b : List Char, listLtB a b = true → listLtB b a = false
  | [], [], h => by simp [listLtB] at h
  | [], _ :: _, _ => rfl
  | _ :: _, [], h => by simp [listLtB] at h
  | a :: as, b :: bs, h => by
    rw [listLtB_cons] at h
    rw [listLtB_cons]
    rcases lt_trichotomy a b with hab | hab | hab
    · rw [if_neg (asymm hab), if_pos hab]
    · subst hab
      rw [if_neg (lt_irrefl a), if_neg (lt_irrefl a)] at h ⊢
      exact listLtB_asymm as bs h
    · rw [if_pos hab, if_neg (asymm hab)] at h
      exact absurd h (by simp)

theorem listLtB_trans :
    ∀ a b c : List Char, listLtB a b = true → listLtB b c = true →
      listLtB a c = true
  | [], b, [], h1, h2 => by cases b <;> simp [listLtB] at h1 h2
  | [], _, _ :: _, _, _ => rfl
  | _ :: _, [], _, h1, _ => by simp [listLtB] at h1
  | _ :: _, _ :: _, [], _, h2 => by simp [listLtB] at h2
  | a :: as, b :: bs, c :: cs, h1, h2 => by
    rw [listLtB_cons] at h1 h2
    rw [listLtB_cons]
    rcases lt_trichotomy a b with hab | hab | hab
    · rcases lt_trichotomy b c with hbc | hbc | hbc
      · rw [if_pos (lt_trans hab hbc)]
      · subst hbc
        rw [if_pos hab]
      · rw [if_pos hbc, if_neg (asymm hbc)] at h2
        exact absurd h2 (by simp)
    · subst hab
      rw [if_neg (lt_irrefl a), if_neg (lt_irrefl a)] at h1
      rcases lt_trichotomy a c with hac | hac | hac
      · rw [if_pos hac]
      · subst hac
        rw [if_neg (lt_irrefl a), if_neg (lt_irrefl a)] at h2 ⊢
        exact listLtB_trans as bs cs h1 h2
      · rw [if_pos hac, if_neg (asymm hac)] at h2
        exact absurd h2 (by simp)
    · rw [if_pos hab, if_neg (asymm hab)] at h1
      exact absurd h1 (by simp)

theorem listLtB_trichot :
    ∀ a b : List Char, listLtB a b = true ∨ a = b ∨ listLtB b a = true
  | [], [] => Or.inr (Or.inl rfl)
  | [], _ :: _ => Or.inl rfl
  | _ :: _, [] => Or.inr (Or.inr rfl)
  | a :: as, b :: bs => by
    rcases lt_trichotomy a b with hab | hab | hab
    · exact Or.inl (by rw [listLtB_cons, if_pos hab])
    · subst hab
      rcases listLtB_trichot as bs with h | h | h
      · exact Or.inl
          (by rw [listLtB_cons, if_neg (lt_irrefl a), if_neg (lt_irrefl a)]; exact h)
      · exact Or.inr (Or.inl (by rw [h]))
      · exact Or.inr (Or.inr
          (by rw [listLtB_cons, if_neg (lt_irrefl a), if_neg (lt_irrefl a)]; exact h))
    · exact Or.inr (Or.inr (by rw [listLtB_cons, if_pos hab]))

instance : IsTotal String strLeP := by
  constructor
  intro a b
  by_cases h : listLtB b.data a.data = true
  · exact Or.inr (listLtB_asymm _ _ h)
  · exact Or.inl (Bool.eq_false_iff.mpr h)

instance : IsTrans String strLeP := by
  constructor
  intro a b c hab hbc
  simp only [strLeP] at hab hbc
  show listLtB c.data a.data = false
  by_contra h
  have hca : listLtB c.data a.data = true := by
    cases hx : listLtB c.data a.data
    · exact absurd hx h
    · rfl
  rcases listLtB_trichot b.data c.data with hbc2 | hbc2 | hbc2
  · have h3 := listLtB_trans _ _ _ hbc2 hca
    rw [h3] at hab
    exact Bool.noConfusion hab
  · rw [hbc2] at hab
    rw [hca] at hab
    exact Bool.noConfusion hab
  · rw [hbc2] at hbc
    exact Bool.noConfusion hbc

/-- Two strings whose character data are equal are equal. -/
theorem stringDataEq {a b : String} (h : a.data = b.data) : a = b :=
  congrArg String.mk h

theorem hasSubstr_infix_iff (sub : List Char) :
    ∀ l : List Char, hasSubstr sub l = true ↔ sub <:+: l := by
  intro l
  induction l with
  | nil =>
    simp only [hasSubstr, List.isEmpty_iff]
    constructor
    · intro h
      rw [h]
    · intro h
      simpa using h.sublist.length_le
  | cons c cs ih =>
    simp only [hasSubstr, Bool.or_eq_true, List.isPrefixOf_iff_prefix, ih,
      List.infix_cons_iff]

theorem hasSubstr_nil_left : ∀ l : List Char, hasSubstr [] l = true
  | [] => rfl
  | _ :: _ => by
    simp [hasSubstr, List.isPrefixOf]

theorem exceptBind_ok {ε α β : Type} (a : α) (f : α → Except ε β) :
    (Except.ok a >>= f) = f a :=
  rfl

theorem lookup_setFile (name : String) (data : FileData) :
    ∀ files : List (String × FileData),
      (setFile files name data).lookup name = some data
  | [] => by simp [setFile, List.lookup]
  | (n, f) :: rest => by
    by_cases h : n = name
    · subst h
      simp [setFile, List.lookup]
    · have hb : (n == name) = false := beq_eq_false_iff_ne.mpr h
      have hb2 : (name == n) = false := beq_eq_false_iff_ne.mpr (Ne.symm h)
      simp [setFile, hb, hb2, List.lookup, lookup_setFile name data rest]

theorem strLtB_of_le_ne {a b : String} (h1 : strLeP a b) (h2 : a ≠ b) :
    strLtB a b = true := by
  rcases listLtB_trichot a.data b.data with h | h | h
  · exact h
  · exact absurd (stringDataEq h) h2
  · rw [strLeP] at h1
    rw [h] at h1
    exact Bool.noConfusion h1

theorem collectPapers_of_readOk (s : Store) :
    ∀ ds : List String, (∀ d ∈ ds, readOk s d = true) →
      collectPapers s ds = .ok (ds.map (docPapers s)).flatten
  | [], _ => rfl
  | d :: ds, h => by
    have hd := h d (List.mem_cons_self d ds)
    have rest :=
      collectPapers_of_readOk s ds (fun x hx => h x (List.mem_cons_of_mem _ hx))
    rw [readOk] at hd
    cases hres : getPapersForDate s d with
    | error msg => rw [hres] at hd; exact Bool.noConfusion hd
    | ok daily =>
      cases daily with
      | none =>
        simp [collectPapers, hres, exceptBind_ok, rest, docPapers]
      | some dp =>
        simp [collectPapers, hres, exceptBind_ok, rest, docPapers]

/-!
## Claims
-/

/-- C2: for every `DailyPapers` value `d` (every field of the model is
JSON-representable) and every store contents, `save(d)` followed by
`getForDate(d.date)` returns a value equal to `d`; the write fully replaces
any document previously stored under `d.date`, since the result does not
depend on the prior contents of `s`. -/
theorem save_then_getForDate (s : Store) (d : DailyPapers) :
    getPapersForDate (saveDailyPapers s d) d.date = .ok (some d) := by
  rw [getPapersForDate, saveDailyPapers]
  rw [lookup_setFile]

/-- C7: `getForDate` distinguishes absence from corruption: it returns `null`
exactly when no file for the date exists; a stored well-formed document is
returned parsed; a malformed stored document raises the parse error instead
of returning `null`. -/
theorem getPapersForDate_absence_vs_error (s : Store) (date : String) :
    (getPapersForDate s date = .ok none ↔
      s.files.lookup (date ++ ".json") = none) ∧
    (∀ d, s.files.lookup (date ++ ".json") = some (.ok d) →
      getPapersForDate s date = .ok (some d)) ∧
    (∀ msg, s.files.lookup (date ++ ".json") = some (.malformed msg) →
      getPapersForDate s date = .error msg) := by
  refine ⟨?_, ?_, ?_⟩
  · rw [getPapersForDate]
    cases h : s.files.lookup (date ++ ".json") with
    | none => simp
    | some fd => cases fd <;> simp
  · intro d h
    rw [getPapersForDate, h]
  · intro msg h
    rw [getPapersForDate, h]

/-- Witness for C7 at a concrete store holding one malformed document, one
well-formed document, and no document for 2099-01-01. -/
theorem getPapersForDate_absence_vs_error_witness :
    getPapersForDate wStoreBad "2025-01-01" =
      .error "SyntaxError: Unexpected token" ∧
    getPapersForDate wStoreBad "2025-02-01" = .ok (some wDaily1) ∧
    getPapersForDate wStoreBad "2099-01-01" = .ok none :=
  ⟨(getPapersForDate_absence_vs_error wStoreBad "2025-01-01").2.2 _ (by decide),
   (getPapersForDate_absence_vs_error wStoreBad "2025-02-01").2.1 _ (by decide),
   (getPapersForDate_absence_vs_error wStoreBad "2099-01-01").1.mpr (by decide)⟩

theorem codePred_eq_specMatches (q : String) (p : Paper) :
    (strIncludes (strToLower p.title) (strToLower q) ||
     strIncludes (strToLower p.abstract) (strToLower q) ||
     strIncludes (strToLower p.summary) (strToLower q) ||
     p.authors.any (fun a => strIncludes (strToLower a) (strToLower q)) ||
     p.tags.any (fun t => strIncludes (strToLower t) (strToLower q))) =
      specMatches q p := by
  simp [specMatches, searchFields, List.any_append, List.any_cons, List.any_nil,
    strIncludes, Bool.or_assoc]

/-- C1: `search(q)` returns exactly the papers of `getAll()` whose lowercased
title, abstract, summary, some author, or some tag contains the lowercased
query as a substring; the relative order of `getAll()` is preserved (the
result is a sublist); and the empty query matches everything, so
`search("")` returns `getAll()` itself. -/
theorem searchPapers_spec (s : Store) (q : String) (all : List Paper)
    (h : getAllPapers s = .ok all) :
    searchPapers s q = .ok (all.filter (fun p => specMatches q p)) ∧
    (all.filter (fun p => specMatches q p)).Sublist all ∧
    (∀ p, specMatches q p = true ↔
      ∃ f ∈ searchFields p, (strToLower q).data <:+: (strToLower f).data) ∧
    searchPapers s "" = .ok all := by
  refine ⟨?_, List.filter_sublist _, ?_, ?_⟩
  · simp only [searchPapers, h, exceptBind_ok]
    exact congrArg Except.ok
      (List.filter_congr (fun p _ => codePred_eq_specMatches q p))
  · intro p
    simp [specMatches, List.any_eq_true, hasSubstr_infix_iff]
  · simp only [searchPapers, h, exceptBind_ok]
    have hall : ∀ p ∈ all,
        (strIncludes (strToLower p.title) (strToLower "") ||
         strIncludes (strToLower p.abstract) (strToLower "") ||
         strIncludes (strToLower p.summary) (strToLower "") ||
         p.authors.any (fun a => strIncludes (strToLower a) (strToLower "")) ||
         p.tags.any (fun t => strIncludes (strToLower t) (strToLower ""))) =
          true := by
      intro p _
      have h1 : strIncludes (strToLower p.title) (strToLower "") = true :=
        hasSubstr_nil_left _
      simp [h1]
    rw [List.filter_congr hall, List.filter_true]

/-- Witness for C1 at the two-date fixture store with query `"nlp"` (which
matches the tag `"NLP"` case-insensitively). -/
theorem searchPapers_spec_witness :
    searchPapers wStore "nlp" =
      .ok (([wPaper2, wPaper1]).filter (fun p => specMatches "nlp" p)) ∧
    (([wPaper2, wPaper1]).filter (fun p => specMatches "nlp" p)).Sublist
      [wPaper2, wPaper1] ∧
    (∀ p, specMatches "nlp" p = true ↔
      ∃ f ∈ searchFields p, (strToLower "nlp").data <:+: (strToLower f).data) ∧
    searchPapers wStore "" = .ok [wPaper2, wPaper1] :=
  searchPapers_spec wStore "nlp" [wPaper2, wPaper1] (by decide)

/-- C3: under the hypothesis that every listed date reads without throwing
(a date may still be absent, i.e. read as `null` — such a date contributes
nothing instead of raising), `getAll()` is the concatenation, over
`listDates()` in order, of each date's `papers`, and its length is the sum
of the per-date lengths. -/
theorem getAllPapers_concat_spec (s : Store)
    (h : ∀ d ∈ getAllDates s, readOk s d = true) :
    getAllPapers s = .ok ((getAllDates s).map (docPapers s)).flatten ∧
    ((getAllDates s).map (docPapers s)).flatten.length =
      (((getAllDates s).map (docPapers s)).map List.length).sum :=
  ⟨collectPapers_of_readOk s (getAllDates s) h, List.length_flatten _⟩

/-- Witness for C3 at the two-date fixture store. -/
theorem getAllPapers_concat_spec_witness :
    getAllPapers wStore =
      .ok ((getAllDates wStore).map (docPapers wStore)).flatten ∧
    ((getAllDates wStore).map (docPapers wStore)).flatten.length =
      (((getAllDates wStore).map (docPapers wStore)).map List.length).sum :=
  getAllPapers_concat_spec wStore (by decide)

/-- C4: `getById(id)` returns the first paper of `getAll()` whose `id`
equals the argument (so with duplicate ids the paper from the earliest
position of `getAll()` — the most recent date — wins), and `null` exactly
when no paper of `getAll()` carries that id. -/
theorem getPaperById_first_match (s : Store) (id : String) (all : List Paper)
    (h : getAllPapers s = .ok all) :
    (getPaperById s id = .ok none ↔ ∀ p ∈ all, p.id ≠ id) ∧
    (∀ p, getPaperById s id = .ok (some p) →
      p.id = id ∧ ∃ l1 l2, all = l1 ++ p :: l2 ∧ ∀ q ∈ l1, q.id ≠ id) := by
  have hby : getPaperById s id = .ok (all.find? (fun p => p.id == id)) := by
    simp only [getPaperById, h, exceptBind_ok]
  constructor
  · rw [hby]
    simp [List.find?_eq_none]
  · intro p hp
    rw [hby] at hp
    have hfind : all.find? (fun p => p.id == id) = some p := by
      injection hp
    rcases List.find?_eq_some.mp hfind with ⟨hpb, l1, l2, heq, hprev⟩
    refine ⟨by simpa using hpb, l1, l2, heq, ?_⟩
    intro r hr
    have := hprev r hr
    simpa using this

/-- Witness for C4 at the two-date fixture store. -/
theorem getPaperById_first_match_witness :
    (getPaperById wStore "2502.00001" = .ok none ↔
      ∀ p ∈ [wPaper2, wPaper1], p.id ≠ "2502.00001") ∧
    (∀ p, getPaperById wStore "2502.00001" = .ok (some p) →
      p.id = "2502.00001" ∧
      ∃ l1 l2, [wPaper2, wPaper1] = l1 ++ p :: l2 ∧
        ∀ q ∈ l1, q.id ≠ "2502.00001") :=
  getPaperById_first_match wStore "2502.00001" [wPaper2, wPaper1] (by decide)

/-- C5 counterexample: two distinct filenames, `"a.jsonb.json"` and
`"ab.json.json"`, both survive the `".json"` suffix filter and both strip
(first occurrence) to `"ab.json"`, so `listDates()` contains a duplicate and
is not strictly descending. -/
theorem getAllDates_dup_cex :
    getAllDates dupStore = ["ab.json", "ab.json"] ∧
    ¬ (getAllDates dupStore).Nodup ∧
    ¬ List.Pairwise (fun a b => strLtB b a = true) (getAllDates dupStore) := by
  refine ⟨by decide, by decide, by decide⟩

/-- C5 (amended): when the stripped kept names are pairwise distinct — in
particular under the one-file-per-date convention `date.json` — `listDates()`
is strictly descending in the lexicographic string order and duplicate-free;
and unconditionally `getLatest()` is `getForDate` of the first listed date,
or `null` when no date is listed. -/
theorem getAllDates_sorted_spec (s : Store) (h : (strippedNames s).Nodup) :
    List.Pairwise (fun a b => strLtB b a = true) (getAllDates s) ∧
    (getAllDates s).Nodup ∧
    getLatestPapers s =
      (match getAllDates s with
       | [] => .ok none
       | d :: _ => getPapersForDate s d) := by
  have hsorted := List.sorted_insertionSort strLeP (strippedNames s)
  have hperm := List.perm_insertionSort strLeP (strippedNames s)
  have hnodup : (List.insertionSort strLeP (strippedNames s)).Nodup :=
    hperm.nodup_iff.mpr h
  have hstrict : List.Pairwise (fun a b => strLtB a b = true)
      (List.insertionSort strLeP (strippedNames s)) :=
    (List.Pairwise.and hsorted hnodup).imp
      (fun hx => strLtB_of_le_ne hx.1 hx.2)
  refine ⟨?_, ?_, rfl⟩
  · rw [getAllDates]
    exact List.pairwise_reverse.mpr hstrict
  · rw [getAllDates]
    exact List.nodup_reverse.mpr hnodup

/-- Witness for the amended C5 at the two-date fixture store. -/
theorem getAllDates_sorted_spec_witness :
    List.Pairwise (fun a b => strLtB b a = true) (getAllDates wStore) ∧
    (getAllDates wStore).Nodup ∧
    getLatestPapers wStore =
      (match getAllDates wStore with
       | [] => .ok none
       | d :: _ => getPapersForDate wStore d) :=
  getAllDates_sorted_spec wStore (by decide)

/-- C6 counterexample: a store entry `"notadate.json"` passes the only test
the code performs (the `".json"` suffix), so `listDates()` returns
`"notadate"`, which is not a `YYYY-MM-DD` date. -/
theorem getAllDates_nondate_cex :
    getAllDates oddStore = ["notadate"] ∧ isDateFormat "notadate" = false := by
  refine ⟨by decide, by decide⟩

/-- C6 (amended): `listDates()` consists of exactly the directory entries
ending in `".json"`, each with its first `".json"` occurrence removed — no
`YYYY-MM-DD` shape check is applied; entries not ending in `".json"` are
silently ignored. -/
theorem getAllDates_exactly_stripped (s : Store) :
    (getAllDates s).Perm (strippedNames s) := by
  rw [getAllDates]
  exact (List.reverse_perm _).trans (List.perm_insertionSort _ _)

/-- C8 counterexample: with `limit=0` and one matching paper the route
returns that paper — a list of length 1, not a list "truncated to at most
0 elements" as the claim reads at `N = 0`. -/
theorem papersGET_limit0_cex :
    papersGET wStore none (some "attention") (some "0") =
      .searchOk [wPaper1] 1 ∧
    ¬ (([wPaper1] : List Paper).length ≤ 0) := by
  refine ⟨by decide, by decide⟩

/-- C8 (amended): for a positive limit `N ≥ 1` the search route returns the
first `min N total` matches — a prefix of the full result, never longer than
`N` — and `total` is the length of the returned slice, not of the full
match list. At `limit=0` or a non-numeric limit no truncation happens. -/
theorem papersGET_search_limit_spec (s : Store) (q lp : String) (n : Int)
    (full : List Paper) (hq : q ≠ "") (hlpne : lp ≠ "")
    (hlp : jsParseInt lp = some n) (hn : 1 ≤ n)
    (hs : searchPapers s q = .ok full) :
    papersGET s none (some q) (some lp) =
      .searchOk (full.take n.toNat) (full.take n.toNat).length ∧
    (full.take n.toNat) <+: full ∧
    (full.take n.toNat).length ≤ n.toNat := by
  have htr : strTruthy (some q) = true := by
    simp [strTruthy, hq]
  have hlpeq : (lp == "") = false := beq_eq_false_iff_ne.mpr hlpne
  have hslice : jsSlice0 full n = full.take n.toNat := by
    rw [jsSlice0, if_pos (by omega : (0 : Int) ≤ n)]
  have hne : (n != 0) = true := bne_iff_ne.mpr (by omega)
  refine ⟨?_, List.take_prefix _ _, ?_⟩
  · simp [papersGET, htr, hlpeq, hlp, hs, hne, hslice]
  · rw [List.length_take]
    exact min_le_left _ _

/-- Witness for the amended C8: limit `"2"` on a one-match search. -/
theorem papersGET_search_limit_spec_witness :
    papersGET wStore none (some "attention") (some "2") =
      .searchOk ([wPaper1].take (2 : Int).toNat)
        ([wPaper1].take (2 : Int).toNat).length ∧
    ([wPaper1].take (2 : Int).toNat) <+: [wPaper1] ∧
    ([wPaper1].take (2 : Int).toNat).length ≤ (2 : Int).toNat :=
  papersGET_search_limit_spec wStore "attention" "2" 2 [wPaper1]
    (by decide) (by decide) (by decide) (by decide) (by decide)

/-- C9 counterexample: a body whose `name` field is present but empty is
caught by the truthiness test `!body.name` and rejected with status 400,
although `""` is a name that "does not match any catalog tool", for which
the claim promises a 200 `Unknown tool` payload. -/
theorem mcpPOST_emptyName_cex :
    mcpPOST (Store.mk []) (some { name := some "", arguments := some {} }) =
      .badRequest "Missing required field: name" ∧
    "" ∉ toolNames := by
  refine ⟨by decide, by decide⟩

/-- C9 (amended): a body with a missing — or empty — `name` gets HTTP 400
with a message mentioning the field; a non-empty `name` matching no catalog
tool gets HTTP 200 with the `Unknown tool` / `isError:true` payload; an
exception thrown while executing a tool is caught and turned into an
`isError:true` result carrying the stringified error; and no parsed body
makes the dispatch endpoint itself fail. -/
theorem mcpPOST_error_spec (s : Store) :
    (∀ body : McpBody, body.name = none ∨ body.name = some "" →
      mcpPOST s (some body) = .badRequest "Missing required field: name") ∧
    strIncludes "Missing required field: name" "name" = true ∧
    (∀ name args, name ∉ toolNames → name ≠ "" →
      mcpPOST s (some { name := some name, arguments := some args }) =
        .ok ⟨[⟨"text", .raw ("Unknown tool: " ++ name)⟩], some true⟩) ∧
    (∀ name args msg, runTool s name args = .error msg →
      executeTool s name args =
        ⟨[⟨"text", .raw ("Error executing tool \"" ++ name ++ "\": " ++ msg)⟩],
          some true⟩) ∧
    (∀ body, mcpPOST s (some body) ≠ .serverError) := by
  refine ⟨?_, by decide, ?_, ?_, ?_⟩
  · intro body hb
    have hfalsy : strTruthy body.name = false := by
      rcases hb with h | h <;> rw [h] <;> rfl
    simp [mcpPOST, hfalsy]
  · intro name args hmem hne
    simp only [toolNames, List.mem_cons, List.mem_singleton, not_or,
      List.not_mem_nil] at hmem
    obtain ⟨h1, h2, h3, h4, h5, -⟩ := hmem
    have e1 : (name == "get_latest_papers") = false := beq_eq_false_iff_ne.mpr h1
    have e2 : (name == "get_papers_by_date") = false := beq_eq_false_iff_ne.mpr h2
    have e3 : (name == "get_paper_by_id") = false := beq_eq_false_iff_ne.mpr h3
    have e4 : (name == "search_papers") = false := beq_eq_false_iff_ne.mpr h4
    have e5 : (name == "list_dates") = false := beq_eq_false_iff_ne.mpr h5
    have etr : strTruthy (some name) = true := by simp [strTruthy, hne]
    simp [mcpPOST, etr, executeTool, runTool, e1, e2, e3, e4, e5]
  · intro name args msg h
    simp [executeTool, h]
  · intro body
    rw [mcpPOST]
    cases h : strTruthy body.name
    · simp [h]
    · simp [h]

/-- Witness for the amended C9: an empty name is rejected with 400 just like
a missing one, an unknown tool name gets the 200 `Unknown tool` payload, and
a thrown read error (malformed document reached by `search_papers`) is
converted into an `isError:true` result. -/
theorem mcpPOST_error_spec_witness :
    mcpPOST wStoreBad (some { name := some "", arguments := none }) =
      .badRequest "Missing required field: name" ∧
    mcpPOST wStoreBad (some { name := none, arguments := none }) =
      .badRequest "Missing required field: name" ∧
    mcpPOST wStoreBad (some { name := some "bogus_tool", arguments := some {} }) =
      .ok ⟨[⟨"text", .raw ("Unknown tool: " ++ "bogus_tool")⟩], some true⟩ ∧
    executeTool wStoreBad "search_papers" { query := some "x" } =
      ⟨[⟨"text", .raw ("Error executing tool \"" ++ "search_papers" ++ "\": " ++
        "SyntaxError: Unexpected token")⟩], some true⟩ :=
  ⟨(mcpPOST_error_spec wStoreBad).1 { name := some "", arguments := none }
     (Or.inr rfl),
   (mcpPOST_error_spec wStoreBad).1 { name := none, arguments := none }
     (Or.inl rfl),
   (mcpPOST_error_spec wStoreBad).2.2.1 "bogus_tool" {} (by decide) (by decide),
   (mcpPOST_error_spec wStoreBad).2.2.2.1 "search_papers" { query := some "x" }
     "SyntaxError: Unexpected token" (by decide)⟩

/-- C10: because `limit` is tested for truthiness, a `limit` of `0` — and a
non-numeric `limit`, which parses to `NaN` — disables truncation: the search
route returns every match, and the `get_papers_by_date` tool returns the
date's full papers list. -/
theorem limit_zero_is_no_limit (s : Store) :
    (∀ q full, q ≠ "" → searchPapers s q = .ok full →
      papersGET s none (some q) (some "0") = .searchOk full full.length ∧
      papersGET s none (some q) (some "abc") = .searchOk full full.length) ∧
    (∀ date daily, getPapersForDate s date = .ok (some daily) →
      executeTool s "get_papers_by_date"
          { date := some date, limit := some 0 } =
        ⟨[⟨"text", .byDatePayload date daily.papers⟩], none⟩) := by
  constructor
  · intro q full hq hs
    have htr : strTruthy (some q) = true := by simp [strTruthy, hq]
    have h0 : jsParseInt "0" = some 0 := by decide
    have h0ne : (("0" : String) == "") = false := by decide
    have habc : jsParseInt "abc" = none := by decide
    have habcne : (("abc" : String) == "") = false := by decide
    constructor
    · simp [papersGET, htr, hs, h0, h0ne]
    · simp [papersGET, htr, hs, habc, habcne]
  · intro date daily hd
    have e1 : (("get_papers_by_date" : String) == "get_latest_papers") = false :=
      by decide
    have e2 : (("get_papers_by_date" : String) == "get_papers_by_date") = true :=
      by decide
    simp [executeTool, runTool, e1, e2, hd, exceptBind_ok, jsUndefStr]

/-- Witness for C10 at the fixture store. -/
theorem limit_zero_is_no_limit_witness :
    papersGET wStore none (some "attention") (some "0") =
      .searchOk [wPaper1] ([wPaper1] : List Paper).length ∧
    executeTool wStore "get_papers_by_date"
        { date := some "2025-02-01", limit := some 0 } =
      ⟨[⟨"text", .byDatePayload "2025-02-01" wDaily1.papers⟩], none⟩ :=
  ⟨((limit_zero_is_no_limit wStore).1 "attention" [wPaper1]
      (by decide) (by decide)).1,
   (limit_zero_is_no_limit wStore).2 "2025-02-01" wDaily1 (by decide)⟩
